import Mathlib

/-! Domain blocks: `internal/db/bundb/domain.go`

A shallow embedding of the `domainDB` methods of GoToSocial's database layer
and proofs about the interplay between the persistent store and the
in-memory domain-block cache.

Go methods that return `(T, error)` become functions returning a pair
`T × Option Error` (`none` is Go's `nil` error).  The mutable receiver
(`d.db`, `d.state.Caches`) becomes an explicit `State` that every method
takes and returns.  A ghost `trace` records each store query and each cache
call in program order, so that "was the store touched / was the cache
cleared" can be stated about the code rather than inferred.
-/

namespace GoToSocial

/-! ## Data model -/

/-- Error values travelling through `domain.go`. -/
inductive Error where
  /-- A failure reported by `util.Punify`. -/
  | invalidDomain
  /-- The value of `db.ErrNoEntries`. -/
  | noEntries
  /-- A uniqueness violation reported by the store. -/
  | alreadyExists
  /-- Any other failure of the persistence layer, tagged with a code. -/
  | store (code : Nat)
  deriving DecidableEq, Repr

/-- Modelled from the spec: the record type `gtsmodel.DomainBlock`, whose
declaration is not part of `domain.go`.  The spec lists a unique identifier,
the normalized domain string, the obfuscation flag, the two comments and the
creation/update timestamps. -/
structure DomainBlock where
  ID : String
  CreatedAt : Nat
  UpdatedAt : Nat
  Domain : String
  PrivateComment : String
  PublicComment : String
  Obfuscate : Bool
  deriving DecidableEq, Repr

/-- A value of `*url.URL`, seen through its accessors.  `Hostname` is the
result of the `Hostname()` method, the only observation `domain.go` makes. -/
structure URL where
  Scheme : String
  Hostname : String
  Path : String
  deriving DecidableEq, Repr

/-- The collaborators `domain.go` calls but does not define: `util.Punify`
(returning Go's pair of a string and an error), `config.GetAccountDomain`
and `config.GetHost`.  They are parameters of the development. -/
structure Env where
  Punify : String → String × Option Error
  AccountDomain : String
  Host : String

/-- The queries `domain.go` builds with the `bun` query builder. -/
inductive Query where
  /-- Query `NewInsert().Model(block)`. -/
  | insert (block : DomainBlock)
  /-- Query `NewUpdate().Model(block).WherePK()`. -/
  | update (block : DomainBlock)
  /-- Query `NewDelete() ... Where("domain_block.domain = ?", domain)`. -/
  | delete (domain : String)
  /-- Query `NewSelect().Model(&block).Where("domain_block.domain = ?", domain)`. -/
  | selectByDomain (domain : String)
  /-- Query `NewSelect().Model(&block).Where("domain_block.id = ?", id)`. -/
  | selectByID (id : String)
  /-- Query `NewSelect().Model(&blocks)`. -/
  | selectAll
  /-- Query `NewSelect().Table("domain_blocks").Column("domain")`. -/
  | selectDomains
  deriving DecidableEq, Repr

/-- Ghost events: one per store query (with the error it returned) and one
per call of a cache method. -/
inductive Event where
  | store (q : Query) (err : Option Error)
  | cacheIsBlocked (domain : String)
  | cacheClear
  deriving DecidableEq, Repr

/-! ## The persistent store -/

/-- Modelled from the spec: the persistent store behind `d.db` (the `bun`
query builder over a transactional relational database, an external
collaborator).  `rows` is the `domain_blocks` table.  `faults` is the
schedule of outcomes the environment has in stock for the coming queries:
each query consumes the head; `some e` makes that query fail with `e` and
leave the table as it was, `none` (or an exhausted schedule) lets it run. -/
structure DB where
  rows : List DomainBlock
  faults : List (Option Error)
  deriving DecidableEq, Repr

/-- Consume the outcome scheduled for the next query. -/
def DB.nextFault (db : DB) : Option Error × DB :=
  match db.faults with
  | [] => (none, db)
  | f :: fs => (f, { db with faults := fs })

/-- Modelled from the spec: `insertBlock`.  The identifier and the domain
are unique; a violation is reported and nothing is written. -/
def DB.Insert (db : DB) (block : DomainBlock) : Option Error × DB :=
  match db.nextFault with
  | (some e, db1) => (some e, db1)
  | (none, db1) =>
    if db1.rows.any (fun r => r.ID == block.ID || r.Domain == block.Domain) then
      (some Error.alreadyExists, db1)
    else
      (none, { db1 with rows := db1.rows ++ [block] })

/-- Modelled from the spec: `updateBlock`, by identifier.  Updating no row
is not an error; moving a row onto a domain another row holds is a
uniqueness violation. -/
def DB.Update (db : DB) (block : DomainBlock) : Option Error × DB :=
  match db.nextFault with
  | (some e, db1) => (some e, db1)
  | (none, db1) =>
    if db1.rows.any (fun r => r.ID == block.ID) &&
        db1.rows.any (fun r => r.ID != block.ID && r.Domain == block.Domain) then
      (some Error.alreadyExists, db1)
    else
      (none, { db1 with rows := db1.rows.map (fun r => if r.ID = block.ID then block else r) })

/-- Modelled from the spec: `deleteBlockByDomain`, deleting the matching
row(s).  Deleting no row is not an error. -/
def DB.Delete (db : DB) (domain : String) : Option Error × DB :=
  match db.nextFault with
  | (some e, db1) => (some e, db1)
  | (none, db1) => (none, { db1 with rows := db1.rows.filter (fun r => r.Domain != domain) })

/-- Modelled from the spec: `findBlockByDomain`; no row is `ErrNoEntries`. -/
def DB.SelectByDomain (db : DB) (domain : String) : (Option DomainBlock × Option Error) × DB :=
  match db.nextFault with
  | (some e, db1) => ((none, some e), db1)
  | (none, db1) =>
    match db1.rows.find? (fun r => r.Domain == domain) with
    | some r => ((some r, none), db1)
    | none => ((none, some Error.noEntries), db1)

/-- Modelled from the spec: `findBlockByID`; no row is `ErrNoEntries`. -/
def DB.SelectByID (db : DB) (id : String) : (Option DomainBlock × Option Error) × DB :=
  match db.nextFault with
  | (some e, db1) => ((none, some e), db1)
  | (none, db1) =>
    match db1.rows.find? (fun r => r.ID == id) with
    | some r => ((some r, none), db1)
    | none => ((none, some Error.noEntries), db1)

/-- Modelled from the spec: `listAllBlocks`. -/
def DB.SelectAll (db : DB) : (List DomainBlock × Option Error) × DB :=
  match db.nextFault with
  | (some e, db1) => (([], some e), db1)
  | (none, db1) => ((db1.rows, none), db1)

/-- Modelled from the spec: `fetchAllBlockedDomains`, every domain currently
recorded as blocked. -/
def DB.SelectDomains (db : DB) : (List String × Option Error) × DB :=
  match db.nextFault with
  | (some e, db1) => (([], some e), db1)
  | (none, db1) => ((db1.rows.map (fun r => r.Domain), none), db1)

/-! ## The domain-block cache -/

/-- Modelled from the spec: the state of the block cache returned by
`d.state.Caches.GTS.DomainBlock()` (package `internal/cache/domain`, not
part of `domain.go`): a set of normalized domains plus a populated marker.
`none` is the unpopulated (empty, invalidated) cache, `some ds` the cache
populated with the domains `ds`. -/
structure BlockCache where
  domains : Option (List String)
  deriving DecidableEq, Repr

/-- The state the methods of `domainDB` act on: the store behind `d.db`,
the cache behind `d.state`, and the ghost trace. -/
structure State where
  db : DB
  cache : BlockCache
  trace : List Event
  deriving DecidableEq, Repr

/-- Append a ghost event. -/
def State.record (s : State) (e : Event) : State :=
  { s with trace := s.trace ++ [e] }

/-- Run a writing query (`Exec(ctx)`, whose `sql.Result` the code discards):
apply it to the table and record it with the error it returned. -/
def State.exec (s : State) (q : Query) (run : DB → Option Error × DB) : Option Error × State :=
  ((run s.db).1, { s with db := (run s.db).2, trace := s.trace ++ [Event.store q (run s.db).1] })

/-- Run a reading query (`Scan(ctx)`): apply it to the table and record it
with the error it returned. -/
def State.scan {α : Type} (s : State) (q : Query)
    (run : DB → (α × Option Error) × DB) : (α × Option Error) × State :=
  ((run s.db).1, { s with db := (run s.db).2, trace := s.trace ++ [Event.store q (run s.db).1.2] })

/-- Modelled from the spec: `Clear()` unconditionally marks the cache
unpopulated, discarding the current set. -/
def State.cacheClear (s : State) : State :=
  { s with cache := ⟨none⟩, trace := s.trace ++ [Event.cacheClear] }

/-- Modelled from the spec: `IsBlocked(domain, load)`.  A populated cache
answers membership from its set.  An unpopulated cache runs `load` once; if
the fetch fails the error is returned and the cache stays unpopulated,
otherwise the fetched list is installed as the populated set and the answer
is taken from it. -/
def State.cacheIsBlocked (s : State) (domain : String)
    (load : State → (List String × Option Error) × State) : (Bool × Option Error) × State :=
  match s.cache.domains with
  | some ds => ((decide (domain ∈ ds), none), s.record (Event.cacheIsBlocked domain))
  | none =>
    match load (s.record (Event.cacheIsBlocked domain)) with
    | ((_, some err), s1) => ((false, some err), s1)
    | ((domains, none), s1) => ((decide (domain ∈ domains), none), { s1 with cache := ⟨some domains⟩ })

/-! ## The methods of `domainDB` -/

/-- The method `CreateDomainBlock`.  The block is passed by pointer and its
`Domain` is overwritten with what `Punify` returned, so the block as left
behind is part of the result. -/
def CreateDomainBlock (env : Env) (block : DomainBlock) (s : State) :
    (Option Error × DomainBlock) × State :=
  -- Normalize the domain as punycode
  match env.Punify block.Domain with
  | (domain, some err) => ((some err, { block with Domain := domain }), s)
  | (domain, none) =>
    -- Attempt to store domain block in DB
    match s.exec (Query.insert { block with Domain := domain })
        (fun db => db.Insert { block with Domain := domain }) with
    | (some err, s1) => ((some err, { block with Domain := domain }), s1)
    | (none, s1) =>
      -- Clear the domain block cache (for later reload)
      ((none, { block with Domain := domain }), s1.cacheClear)

/-- The method `GetDomainBlock`. -/
def GetDomainBlock (env : Env) (domain : String) (s : State) :
    (Option DomainBlock × Option Error) × State :=
  -- Normalize the domain as punycode
  match env.Punify domain with
  | (_, some err) => ((none, some err), s)
  | (domain, none) =>
    -- Check for easy case, domain referencing *us*
    if domain = "" ∨ domain = env.AccountDomain ∨ domain = env.Host then
      ((none, some Error.noEntries), s)
    else
      -- Look for block matching domain in DB
      match s.scan (Query.selectByDomain domain) (fun db => db.SelectByDomain domain) with
      | ((_, some err), s1) => ((none, some err), s1)
      | ((block, none), s1) => ((block, none), s1)

/-- The method `GetDomainBlocks`. -/
def GetDomainBlocks (s : State) : (Option (List DomainBlock) × Option Error) × State :=
  match s.scan Query.selectAll (fun db => db.SelectAll) with
  | ((_, some err), s1) => ((none, some err), s1)
  | ((blocks, none), s1) => ((some blocks, none), s1)

/-- The method `GetDomainBlockByID`. -/
def GetDomainBlockByID (id : String) (s : State) :
    (Option DomainBlock × Option Error) × State :=
  match s.scan (Query.selectByID id) (fun db => db.SelectByID id) with
  | ((_, some err), s1) => ((none, some err), s1)
  | ((block, none), s1) => ((block, none), s1)

/-- The method `DeleteDomainBlock`. -/
def DeleteDomainBlock (env : Env) (domain : String) (s : State) : Option Error × State :=
  -- Normalize the domain as punycode
  match env.Punify domain with
  | (_, some err) => (some err, s)
  | (domain, none) =>
    -- Attempt to delete domain block
    match s.exec (Query.delete domain) (fun db => db.Delete domain) with
    | (some err, s1) => (some err, s1)
    | (none, s1) =>
      -- Clear the domain block cache (for later reload)
      (none, s1.cacheClear)

/-- The method `UpdateDomainBlock`; the block is left with the normalized
domain, as in `CreateDomainBlock`. -/
def UpdateDomainBlock (env : Env) (block : DomainBlock) (s : State) :
    (Option Error × DomainBlock) × State :=
  -- Normalize the domain as punycode
  match env.Punify block.Domain with
  | (domain, some err) => ((some err, { block with Domain := domain }), s)
  | (domain, none) =>
    -- Attempt to update domain block in DB
    match s.exec (Query.update { block with Domain := domain })
        (fun db => db.Update { block with Domain := domain }) with
    | (some err, s1) => ((some err, { block with Domain := domain }), s1)
    | (none, s1) =>
      -- Clear the domain block cache (for later reload)
      ((none, { block with Domain := domain }), s1.cacheClear)

/-- The hydration callback `IsDomainBlocked` hands to the cache: scan the
list of all blocked domains from the store. -/
def loadDomains (s : State) : (List String × Option Error) × State :=
  match s.scan Query.selectDomains (fun db => db.SelectDomains) with
  | ((_, some err), s1) => (([], some err), s1)
  | ((domains, none), s1) => ((domains, none), s1)

/-- The method `IsDomainBlocked`. -/
def IsDomainBlocked (env : Env) (domain : String) (s : State) : (Bool × Option Error) × State :=
  -- Normalize the domain as punycode
  match env.Punify domain with
  | (_, some err) => ((false, some err), s)
  | (domain, none) =>
    -- Check for easy case, domain referencing *us*
    if domain = "" ∨ domain = env.AccountDomain ∨ domain = env.Host then
      ((false, none), s)
    else
      -- Check the cache for a domain block (hydrating the cache with callback if necessary)
      s.cacheIsBlocked domain loadDomains

/-- The method `AreDomainsBlocked`: the `for ... range domains` loop. -/
def AreDomainsBlocked (env : Env) : List String → State → (Bool × Option Error) × State
  | [], s => ((false, none), s)
  | domain :: rest, s =>
    match IsDomainBlocked env domain s with
    | ((_, some err), s1) => ((false, some err), s1)
    | ((true, none), s1) => ((true, none), s1)
    | ((false, none), s1) => AreDomainsBlocked env rest s1

/-- The method `IsURIBlocked`. -/
def IsURIBlocked (env : Env) (uri : URL) (s : State) : (Bool × Option Error) × State :=
  IsDomainBlocked env uri.Hostname s

/-- The method `AreURIsBlocked`: the `for ... range uris` loop. -/
def AreURIsBlocked (env : Env) : List URL → State → (Bool × Option Error) × State
  | [], s => ((false, none), s)
  | uri :: rest, s =>
    match IsDomainBlocked env uri.Hostname s with
    | ((_, some err), s1) => ((false, some err), s1)
    | ((true, none), s1) => ((true, none), s1)
    | ((false, none), s1) => AreURIsBlocked env rest s1

/-! ## Notions used to state the properties -/

/-- What the trace and the cache must show of one mutation that issued the
writing query `q` and returned `err`, between the state `s` before and the
state `t` after.  On success the call appended exactly the successful write
followed by one `Clear`, and the cache is unpopulated.  On failure it
appended nothing (the input was rejected before the store) or only the
failed write, and the cache is what it was. -/
def ClearDiscipline (q : Query) (err : Option Error) (s t : State) : Prop :=
  match err with
  | none => t.trace = s.trace ++ [Event.store q none, Event.cacheClear] ∧ t.cache = ⟨none⟩
  | some e =>
    (t.trace = s.trace ∨ t.trace = s.trace ++ [Event.store q (some e)]) ∧ t.cache = s.cache

/-- Check `domains` in order from `s` as long as every check answers
`(false, nil)`: the state after the last check, or `none` as soon as one
check answers `true` or fails. -/
def allClear (env : Env) : List String → State → Option State
  | [], s => some s
  | domain :: rest, s =>
    match IsDomainBlocked env domain s with
    | ((false, none), s1) => allClear env rest s1
    | _ => none

/-- A call of one of the methods of `domainDB`. -/
inductive Call where
  | CreateDomainBlock (block : DomainBlock)
  | GetDomainBlock (domain : String)
  | GetDomainBlocks
  | GetDomainBlockByID (id : String)
  | DeleteDomainBlock (domain : String)
  | UpdateDomainBlock (block : DomainBlock)
  | IsDomainBlocked (domain : String)
  | AreDomainsBlocked (domains : List String)
  | IsURIBlocked (uri : URL)
  | AreURIsBlocked (uris : List URL)
  deriving DecidableEq, Repr

/-- The state a call leaves, whether it succeeded or failed. -/
def step (env : Env) (c : Call) (s : State) : State :=
  match c with
  | Call.CreateDomainBlock block => (CreateDomainBlock env block s).2
  | Call.GetDomainBlock domain => (GetDomainBlock env domain s).2
  | Call.GetDomainBlocks => (GetDomainBlocks s).2
  | Call.GetDomainBlockByID id => (GetDomainBlockByID id s).2
  | Call.DeleteDomainBlock domain => (DeleteDomainBlock env domain s).2
  | Call.UpdateDomainBlock block => (UpdateDomainBlock env block s).2
  | Call.IsDomainBlocked domain => (IsDomainBlocked env domain s).2
  | Call.AreDomainsBlocked domains => (AreDomainsBlocked env domains s).2
  | Call.IsURIBlocked uri => (IsURIBlocked env uri s).2
  | Call.AreURIsBlocked uris => (AreURIsBlocked env uris s).2

/-- The state a sequence of calls leaves, run one after the other. -/
def run (env : Env) (calls : List Call) (s : State) : State :=
  calls.foldl (fun s c => step env c s) s

/-- A populated cache holds the domain of every row of the table, row by
row. -/
def Consistent (s : State) : Prop :=
  ∀ ds, s.cache.domains = some ds → ds = s.db.rows.map (fun r => r.Domain)

instance (q : Query) (err : Option Error) (s t : State) :
    Decidable (ClearDiscipline q err s t) :=
  match err with
  | none =>
    inferInstanceAs (Decidable
      (t.trace = s.trace ++ [Event.store q none, Event.cacheClear] ∧ t.cache = ⟨none⟩))
  | some e =>
    inferInstanceAs (Decidable
      ((t.trace = s.trace ∨ t.trace = s.trace ++ [Event.store q (some e)]) ∧ t.cache = s.cache))

instance (s : State) : Decidable (Consistent s) :=
  match h : s.cache.domains with
  | none => isTrue (fun ds hds => by rw [h] at hds; cases hds)
  | some cached =>
    if heq : cached = s.db.rows.map (fun r => r.Domain) then
      isTrue (fun ds hds => by rw [h] at hds; cases hds; exact heq)
    else
      isFalse (fun hc => heq (hc cached h))

/-! ## Concrete inputs

A small configuration and a few states at which the theorems below are
instantiated. -/

/-- A stand-in for `util.Punify` on a handful of inputs: one malformed
input is rejected, one Unicode name is mapped to its ASCII form, one name is
case-folded, every other input is already normal. -/
def demoPunify (raw : String) : String × Option Error :=
  if raw = "bad domain" then ("", some Error.invalidDomain)
  else if raw = "bücher.example" then ("xn--bcher-kva.example", none)
  else if raw = "EVIL.example" then ("evil.example", none)
  else (raw, none)

/-- An instance whose host is `gts.example` and whose account domain is
`example.org`. -/
def demoEnv : Env := ⟨demoPunify, "example.org", "gts.example"⟩

/-- A block record for the given domain. -/
def demoBlock (id domain : String) : DomainBlock := ⟨id, 0, 0, domain, "", "", false⟩

/-- A state with the given table, no scheduled store failure, an unpopulated
cache and an empty trace. -/
def demoState (rows : List DomainBlock) : State := ⟨⟨rows, []⟩, ⟨none⟩, []⟩

/-! ## Theorems -/

/-- C3: when the normalized input is the empty string, the account domain or
the host, `IsDomainBlocked` answers `(false, nil)` and hands back the state
it was given: no cache call and no store query is recorded, the cache and
the store are untouched, whatever they contain. -/
theorem IsDomainBlocked_self (env : Env) (domain normal : String) (s : State)
    (hp : env.Punify domain = (normal, none))
    (hself : normal = "" ∨ normal = env.AccountDomain ∨ normal = env.Host) :
    IsDomainBlocked env domain s = ((false, none), s) := by
  simp only [IsDomainBlocked, hp]
  rw [if_pos hself]

/-- Instance of `IsDomainBlocked_self`: the host itself, with the host
recorded as blocked both in the table and in a populated cache. -/
theorem IsDomainBlocked_self_witness :
    IsDomainBlocked demoEnv "gts.example"
        ⟨⟨[demoBlock "01" "gts.example"], []⟩, ⟨some ["gts.example"]⟩, []⟩
      = ((false, none), ⟨⟨[demoBlock "01" "gts.example"], []⟩, ⟨some ["gts.example"]⟩, []⟩) :=
  IsDomainBlocked_self demoEnv "gts.example" "gts.example" _ (by decide) (by decide)

/-- C4: two valid inputs with the same normal form get the same answer from
`IsDomainBlocked` and leave the same state (cache, store and trace). -/
theorem IsDomainBlocked_normal_form (env : Env) (d1 d2 normal : String) (s : State)
    (h1 : env.Punify d1 = (normal, none)) (h2 : env.Punify d2 = (normal, none)) :
    IsDomainBlocked env d1 s = IsDomainBlocked env d2 s := by
  simp only [IsDomainBlocked, h1, h2]

/-- Instance of `IsDomainBlocked_normal_form`: the Unicode and the ASCII
spelling of one domain. -/
theorem IsDomainBlocked_normal_form_witness :
    IsDomainBlocked demoEnv "bücher.example" (demoState [demoBlock "01" "xn--bcher-kva.example"])
      = IsDomainBlocked demoEnv "xn--bcher-kva.example"
          (demoState [demoBlock "01" "xn--bcher-kva.example"]) :=
  IsDomainBlocked_normal_form demoEnv _ _ "xn--bcher-kva.example" _ (by decide) (by decide)

/-- C7: when `Punify` rejects the input, each of `CreateDomainBlock`,
`UpdateDomainBlock`, `DeleteDomainBlock`, `GetDomainBlock` and
`IsDomainBlocked` returns that very error and hands back the state it was
given: store, cache and trace are unchanged, so no query ran and no cache
method was called. -/
theorem Punify_failure_aborts (env : Env) (block : DomainBlock) (out : String) (err : Error)
    (s : State) (hp : env.Punify block.Domain = (out, some err)) :
    CreateDomainBlock env block s = ((some err, { block with Domain := out }), s) ∧
    UpdateDomainBlock env block s = ((some err, { block with Domain := out }), s) ∧
    DeleteDomainBlock env block.Domain s = (some err, s) ∧
    GetDomainBlock env block.Domain s = ((none, some err), s) ∧
    IsDomainBlocked env block.Domain s = ((false, some err), s) := by
  simp only [CreateDomainBlock, UpdateDomainBlock, DeleteDomainBlock, GetDomainBlock,
    IsDomainBlocked, hp, and_self]

/-- Instance of `Punify_failure_aborts`: a malformed domain. -/
theorem Punify_failure_aborts_witness :
    CreateDomainBlock demoEnv (demoBlock "01" "bad domain") (demoState [])
      = ((some Error.invalidDomain, { demoBlock "01" "bad domain" with Domain := "" }),
          demoState []) ∧
    UpdateDomainBlock demoEnv (demoBlock "01" "bad domain") (demoState [])
      = ((some Error.invalidDomain, { demoBlock "01" "bad domain" with Domain := "" }),
          demoState []) ∧
    DeleteDomainBlock demoEnv (demoBlock "01" "bad domain").Domain (demoState [])
      = (some Error.invalidDomain, demoState []) ∧
    GetDomainBlock demoEnv (demoBlock "01" "bad domain").Domain (demoState [])
      = ((none, some Error.invalidDomain), demoState []) ∧
    IsDomainBlocked demoEnv (demoBlock "01" "bad domain").Domain (demoState [])
      = ((false, some Error.invalidDomain), demoState []) :=
  Punify_failure_aborts demoEnv (demoBlock "01" "bad domain") "" Error.invalidDomain
    (demoState []) (by decide)

/-- C9: `IsURIBlocked` on a URI is `IsDomainBlocked` on its hostname: the
same boolean, the same error and the same resulting state; so the URI
`https://evil.example/inbox` is handled as the domain `evil.example`. -/
theorem IsURIBlocked_eq (env : Env) (uri : URL) (s : State) :
    IsURIBlocked env uri s = IsDomainBlocked env uri.Hostname s ∧
    IsURIBlocked env ⟨"https", "evil.example", "/inbox"⟩ s
      = IsDomainBlocked env "evil.example" s :=
  ⟨rfl, rfl⟩

/-- The loop over URIs is the loop over their hostnames. -/
theorem AreURIsBlocked_map (env : Env) (uris : List URL) (s : State) :
    AreURIsBlocked env uris s = AreDomainsBlocked env (uris.map (fun u => u.Hostname)) s := by
  induction uris generalizing s with
  | nil => rfl
  | cons uri rest ih =>
    simp only [AreURIsBlocked, List.map_cons, AreDomainsBlocked]
    split <;> simp_all

/-- C10: `AreURIsBlocked` on a list of URIs is `AreDomainsBlocked` on the
list of their hostnames, in the same order: the same boolean, the same error
and the same resulting state; on the empty list both answer `(false, nil)`. -/
theorem AreURIsBlocked_eq (env : Env) (uris : List URL) (s : State) :
    AreURIsBlocked env uris s = AreDomainsBlocked env (uris.map (fun u => u.Hostname)) s ∧
    AreURIsBlocked env [] s = ((false, none), s) :=
  ⟨AreURIsBlocked_map env uris s, rfl⟩

/-! ### The loop of `AreDomainsBlocked` -/

/-- Checks that all answer `(false, nil)` are skipped over by the loop. -/
theorem AreDomainsBlocked_append (env : Env) (pre rest : List String) (s s1 : State)
    (h : allClear env pre s = some s1) :
    AreDomainsBlocked env (pre ++ rest) s = AreDomainsBlocked env rest s1 := by
  induction pre generalizing s with
  | nil =>
    simp only [allClear, Option.some.injEq] at h
    simp [h]
  | cons d pre ih =>
    rcases hd : IsDomainBlocked env d s with ⟨⟨b, e⟩, s2⟩
    cases b <;> cases e <;> simp [allClear, hd] at h
    simp only [List.cons_append, AreDomainsBlocked, hd]
    exact ih s2 h

/-- Either every check answers `(false, nil)` or there is a first one that
does not. -/
theorem allClear_or_stop (env : Env) (domains : List String) (s : State) :
    (∃ t, allClear env domains s = some t) ∨
    ∃ pre d post s1, domains = pre ++ d :: post ∧ allClear env pre s = some s1 ∧
      (IsDomainBlocked env d s1).1 ≠ (false, none) := by
  induction domains generalizing s with
  | nil => exact Or.inl ⟨s, rfl⟩
  | cons d rest ih =>
    rcases hd : IsDomainBlocked env d s with ⟨⟨b, e⟩, s2⟩
    by_cases hstop : (b, e) = (false, none)
    · simp only [Prod.mk.injEq] at hstop
      obtain ⟨rfl, rfl⟩ := hstop
      rcases ih s2 with ⟨t, ht⟩ | ⟨pre, d1, post, s1, hsplit, hpre, hne⟩
      · exact Or.inl ⟨t, by simp [allClear, hd, ht]⟩
      · exact Or.inr ⟨d :: pre, d1, post, s1, by simp [hsplit], by simp [allClear, hd, hpre], hne⟩
    · exact Or.inr ⟨[], d, rest, s, rfl, rfl, by simp [hd, hstop]⟩

/-- The loop at a check answering `true`. -/
theorem AreDomainsBlocked_stop_true (env : Env) (pre post : List String) (d : String)
    (s s1 s2 : State) (hpre : allClear env pre s = some s1)
    (hd : IsDomainBlocked env d s1 = ((true, none), s2)) :
    AreDomainsBlocked env (pre ++ d :: post) s = ((true, none), s2) := by
  rw [AreDomainsBlocked_append env pre (d :: post) s s1 hpre]
  simp [AreDomainsBlocked, hd]

/-- The loop at a failing check. -/
theorem AreDomainsBlocked_stop_error (env : Env) (pre post : List String) (d : String)
    (s s1 s2 : State) (b : Bool) (e : Error) (hpre : allClear env pre s = some s1)
    (hd : IsDomainBlocked env d s1 = ((b, some e), s2)) :
    AreDomainsBlocked env (pre ++ d :: post) s = ((false, some e), s2) := by
  rw [AreDomainsBlocked_append env pre (d :: post) s s1 hpre]
  simp [AreDomainsBlocked, hd]

/-- C5: `AreDomainsBlocked` checks the elements in order with
`IsDomainBlocked` and stops at the first check that fails or answers `true`.
The empty list gives `(false, nil)`.  If every check answers `(false, nil)`
the result is `(false, nil)`, and only then.  If the first check that does
not is a block the result is `(true, nil)`, and `true` is returned only then.
If it is a failure the result is `(false, err)` with that error, and an
error is returned only then.  In both stopping cases the state returned is
the one the stopping check left, whatever follows it in the list. -/
theorem AreDomainsBlocked_spec (env : Env) (domains : List String) (s : State) :
    AreDomainsBlocked env [] s = ((false, none), s) ∧
    (∀ t, allClear env domains s = some t → AreDomainsBlocked env domains s = ((false, none), t)) ∧
    (∀ pre d post s1 s2, domains = pre ++ d :: post → allClear env pre s = some s1 →
      IsDomainBlocked env d s1 = ((true, none), s2) →
      AreDomainsBlocked env domains s = ((true, none), s2)) ∧
    (∀ pre d post s1 s2 b e, domains = pre ++ d :: post → allClear env pre s = some s1 →
      IsDomainBlocked env d s1 = ((b, some e), s2) →
      AreDomainsBlocked env domains s = ((false, some e), s2)) ∧
    ((AreDomainsBlocked env domains s).1 = (false, none) ↔
      ∃ t, allClear env domains s = some t) ∧
    ((AreDomainsBlocked env domains s).1.1 = true ↔
      ∃ pre d post s1, domains = pre ++ d :: post ∧ allClear env pre s = some s1 ∧
        (IsDomainBlocked env d s1).1 = (true, none)) ∧
    (∀ e, (AreDomainsBlocked env domains s).1.2 = some e ↔
      ∃ pre d post s1, domains = pre ++ d :: post ∧ allClear env pre s = some s1 ∧
        (IsDomainBlocked env d s1).1.2 = some e) := by
  have hclear : ∀ t, allClear env domains s = some t →
      AreDomainsBlocked env domains s = ((false, none), t) := by
    intro t ht
    have := AreDomainsBlocked_append env domains [] s t ht
    simpa [AreDomainsBlocked] using this
  have htrue : ∀ pre d post s1 s2, domains = pre ++ d :: post → allClear env pre s = some s1 →
      IsDomainBlocked env d s1 = ((true, none), s2) →
      AreDomainsBlocked env domains s = ((true, none), s2) := by
    intro pre d post s1 s2 hsplit hpre hd
    rw [hsplit]
    exact AreDomainsBlocked_stop_true env pre post d s s1 s2 hpre hd
  have herr : ∀ pre d post s1 s2 b e, domains = pre ++ d :: post →
      allClear env pre s = some s1 → IsDomainBlocked env d s1 = ((b, some e), s2) →
      AreDomainsBlocked env domains s = ((false, some e), s2) := by
    intro pre d post s1 s2 b e hsplit hpre hd
    rw [hsplit]
    exact AreDomainsBlocked_stop_error env pre post d s s1 s2 b e hpre hd
  refine ⟨rfl, hclear, htrue, herr, ?_, ?_, ?_⟩
  · constructor
    · intro h
      rcases allClear_or_stop env domains s with ht | ⟨pre, d, post, s1, hsplit, hpre, hne⟩
      · exact ht
      · rcases hd : IsDomainBlocked env d s1 with ⟨⟨b, e⟩, s2⟩
        cases e with
        | some e => rw [herr pre d post s1 s2 b e hsplit hpre hd] at h; simp at h
        | none =>
          cases b with
          | true => rw [htrue pre d post s1 s2 hsplit hpre hd] at h; simp at h
          | false => simp [hd] at hne
    · rintro ⟨t, ht⟩
      rw [hclear t ht]
  · constructor
    · intro h
      rcases allClear_or_stop env domains s with ⟨t, ht⟩ | ⟨pre, d, post, s1, hsplit, hpre, hne⟩
      · rw [hclear t ht] at h; simp at h
      · rcases hd : IsDomainBlocked env d s1 with ⟨⟨b, e⟩, s2⟩
        cases e with
        | some e => rw [herr pre d post s1 s2 b e hsplit hpre hd] at h; simp at h
        | none =>
          cases b with
          | true => exact ⟨pre, d, post, s1, hsplit, hpre, by rw [hd]⟩
          | false => simp [hd] at hne
    · rintro ⟨pre, d, post, s1, hsplit, hpre, hd⟩
      rw [htrue pre d post s1 (IsDomainBlocked env d s1).2 hsplit hpre (by rw [← hd])]
  · intro e
    constructor
    · intro h
      rcases allClear_or_stop env domains s with ⟨t, ht⟩ | ⟨pre, d, post, s1, hsplit, hpre, hne⟩
      · rw [hclear t ht] at h; simp at h
      · rcases hd : IsDomainBlocked env d s1 with ⟨⟨b, e1⟩, s2⟩
        cases e1 with
        | some e1 =>
          rw [herr pre d post s1 s2 b e1 hsplit hpre hd] at h
          exact ⟨pre, d, post, s1, hsplit, hpre, by rw [hd]; exact h⟩
        | none =>
          cases b with
          | true => rw [htrue pre d post s1 s2 hsplit hpre hd] at h; simp at h
          | false => simp [hd] at hne
    · rintro ⟨pre, d, post, s1, hsplit, hpre, hd⟩
      rw [herr pre d post s1 (IsDomainBlocked env d s1).2 (IsDomainBlocked env d s1).1.1 e
        hsplit hpre (by rw [← hd])]

/-! ### Mutations and `Clear` -/

/-- C6: each of `CreateDomainBlock`, `UpdateDomainBlock` and
`DeleteDomainBlock` observes the clear discipline.  When it returns no error
the trace gained exactly the successful write followed by one `Clear` (so the
cache was cleared once, after the write returned) and the cache is
unpopulated.  When it returns an error the trace gained nothing or only the
failed write, so `Clear` was not called, and the cache is what it was. -/
theorem mutations_clear_discipline (env : Env) (block : DomainBlock) (domain : String)
    (s : State) :
    ClearDiscipline (Query.insert (CreateDomainBlock env block s).1.2)
      (CreateDomainBlock env block s).1.1 s (CreateDomainBlock env block s).2 ∧
    ClearDiscipline (Query.update (UpdateDomainBlock env block s).1.2)
      (UpdateDomainBlock env block s).1.1 s (UpdateDomainBlock env block s).2 ∧
    ClearDiscipline (Query.delete (env.Punify domain).1)
      (DeleteDomainBlock env domain s).1 s (DeleteDomainBlock env domain s).2 := by
  refine ⟨?_, ?_, ?_⟩
  · rcases hp : env.Punify block.Domain with ⟨out, perr⟩
    cases perr with
    | some e => simp [CreateDomainBlock, hp, ClearDiscipline]
    | none =>
      cases hw : (s.db.Insert { block with Domain := out }).1 with
      | some e => simp [CreateDomainBlock, hp, ClearDiscipline, State.exec, hw]
      | none => simp [CreateDomainBlock, hp, ClearDiscipline, State.exec, hw, State.cacheClear]
  · rcases hp : env.Punify block.Domain with ⟨out, perr⟩
    cases perr with
    | some e => simp [UpdateDomainBlock, hp, ClearDiscipline]
    | none =>
      cases hw : (s.db.Update { block with Domain := out }).1 with
      | some e => simp [UpdateDomainBlock, hp, ClearDiscipline, State.exec, hw]
      | none => simp [UpdateDomainBlock, hp, ClearDiscipline, State.exec, hw, State.cacheClear]
  · rcases hp : env.Punify domain with ⟨out, perr⟩
    cases perr with
    | some e => simp [DeleteDomainBlock, hp, ClearDiscipline]
    | none =>
      cases hw : (s.db.Delete out).1 with
      | some e => simp [DeleteDomainBlock, hp, ClearDiscipline, State.exec, hw]
      | none => simp [DeleteDomainBlock, hp, ClearDiscipline, State.exec, hw, State.cacheClear]

/-! ### Facts about the store -/

theorem DB.nextFault_rows (db : DB) : db.nextFault.2.rows = db.rows := by
  unfold DB.nextFault
  split <;> rfl

theorem DB.Insert_ok (db : DB) (b : DomainBlock) (h : (db.Insert b).1 = none) :
    (db.Insert b).2.rows = db.rows ++ [b] := by
  have hr := db.nextFault_rows
  rcases hnf : db.nextFault with ⟨f, db1⟩
  rw [hnf] at hr
  simp only at hr
  cases f with
  | some e => simp [DB.Insert, hnf] at h
  | none =>
    simp only [DB.Insert, hnf] at h ⊢
    split at h
    · simp at h
    · rename_i hc
      rw [if_neg hc, hr]

theorem DB.Insert_err (db : DB) (b : DomainBlock) (e : Error) (h : (db.Insert b).1 = some e) :
    (db.Insert b).2.rows = db.rows := by
  have hr := db.nextFault_rows
  rcases hnf : db.nextFault with ⟨f, db1⟩
  rw [hnf] at hr
  simp only at hr
  cases f with
  | some e1 => simpa [DB.Insert, hnf] using hr
  | none =>
    simp only [DB.Insert, hnf] at h ⊢
    split at h
    · rename_i hc
      rw [if_pos hc]
      exact hr
    · simp at h

theorem DB.Update_err (db : DB) (b : DomainBlock) (e : Error) (h : (db.Update b).1 = some e) :
    (db.Update b).2.rows = db.rows := by
  have hr := db.nextFault_rows
  rcases hnf : db.nextFault with ⟨f, db1⟩
  rw [hnf] at hr
  simp only at hr
  cases f with
  | some e1 => simpa [DB.Update, hnf] using hr
  | none =>
    simp only [DB.Update, hnf] at h ⊢
    split at h
    · rename_i hc
      rw [if_pos hc]
      exact hr
    · simp at h

theorem DB.Delete_ok (db : DB) (d : String) (h : (db.Delete d).1 = none) :
    (db.Delete d).2.rows = db.rows.filter (fun r => r.Domain != d) := by
  have hr := db.nextFault_rows
  unfold DB.Delete at h ⊢
  split
  · simp_all
  · simp_all

theorem DB.Delete_err (db : DB) (d : String) (e : Error) (h : (db.Delete d).1 = some e) :
    (db.Delete d).2.rows = db.rows := by
  have hr := db.nextFault_rows
  unfold DB.Delete at h ⊢
  split
  · simp_all
  · simp_all

theorem DB.SelectByDomain_rows (db : DB) (d : String) : (db.SelectByDomain d).2.rows = db.rows := by
  have hr := db.nextFault_rows
  unfold DB.SelectByDomain
  split
  · simp_all
  · split <;> simp_all

theorem DB.SelectByID_rows (db : DB) (id : String) : (db.SelectByID id).2.rows = db.rows := by
  have hr := db.nextFault_rows
  unfold DB.SelectByID
  split
  · simp_all
  · split <;> simp_all

theorem DB.SelectAll_rows (db : DB) : db.SelectAll.2.rows = db.rows := by
  have hr := db.nextFault_rows
  unfold DB.SelectAll
  split <;> simp_all

theorem DB.SelectDomains_rows (db : DB) : db.SelectDomains.2.rows = db.rows := by
  have hr := db.nextFault_rows
  unfold DB.SelectDomains
  split <;> simp_all

/-- The fetch fails exactly with the outcome scheduled for it. -/
theorem DB.SelectDomains_err (db : DB) : db.SelectDomains.1.2 = db.nextFault.1 := by
  unfold DB.SelectDomains
  split <;> simp_all

/-- A fetch that does not fail returns the domain of every row. -/
theorem DB.SelectDomains_ok (db : DB) (h : db.nextFault.1 = none) :
    db.SelectDomains.1.1 = db.rows.map (fun r => r.Domain) := by
  have hr := db.nextFault_rows
  unfold DB.SelectDomains
  split <;> simp_all

/-! ### Facts about the cache -/

/-- A populated cache answers from its set and touches nothing but the trace. -/
theorem cacheIsBlocked_populated (s : State) (d : String) (ds : List String)
    (h : s.cache.domains = some ds) :
    s.cacheIsBlocked d loadDomains
      = ((decide (d ∈ ds), none), s.record (Event.cacheIsBlocked d)) := by
  simp [State.cacheIsBlocked, h]

/-- An unpopulated cache whose fetch does not fail installs the domains of
the table and answers from them. -/
theorem cacheIsBlocked_hydrate (s : State) (d : String) (h : s.cache.domains = none)
    (hf : s.db.nextFault.1 = none) :
    (s.cacheIsBlocked d loadDomains).1 = (decide (d ∈ s.db.rows.map (fun r => r.Domain)), none) ∧
    (s.cacheIsBlocked d loadDomains).2.cache = ⟨some (s.db.rows.map (fun r => r.Domain))⟩ ∧
    (s.cacheIsBlocked d loadDomains).2.db.rows = s.db.rows := by
  have herr := s.db.SelectDomains_err
  have hok := s.db.SelectDomains_ok hf
  have hrows := s.db.SelectDomains_rows
  rw [hf] at herr
  rcases hsel : s.db.SelectDomains with ⟨⟨ds, e⟩, db1⟩
  rw [hsel] at herr hok hrows
  simp only at herr hok hrows
  subst herr hok
  simp [State.cacheIsBlocked, h, State.record, loadDomains, State.scan, hsel, hrows]

/-- An unpopulated cache whose fetch fails returns the error and stays
unpopulated. -/
theorem cacheIsBlocked_fault (s : State) (d : String) (e : Error) (h : s.cache.domains = none)
    (hf : s.db.nextFault.1 = some e) :
    (s.cacheIsBlocked d loadDomains).1 = (false, some e) ∧
    (s.cacheIsBlocked d loadDomains).2.cache = s.cache ∧
    (s.cacheIsBlocked d loadDomains).2.db.rows = s.db.rows := by
  have herr := s.db.SelectDomains_err
  have hrows := s.db.SelectDomains_rows
  rw [hf] at herr
  rcases hsel : s.db.SelectDomains with ⟨⟨ds, e1⟩, db1⟩
  rw [hsel] at herr hrows
  simp only at herr hrows
  subst herr
  simp [State.cacheIsBlocked, h, State.record, loadDomains, State.scan, hsel, hrows]

/-! ### What each mutation leaves behind -/

theorem CreateDomainBlock_ok (env : Env) (b : DomainBlock) (s : State)
    (h : (CreateDomainBlock env b s).1.1 = none) :
    (env.Punify b.Domain).2 = none ∧
    (CreateDomainBlock env b s).2.cache = ⟨none⟩ ∧
    (CreateDomainBlock env b s).2.db.rows
      = s.db.rows ++ [{ b with Domain := (env.Punify b.Domain).1 }] := by
  rcases hp : env.Punify b.Domain with ⟨out, perr⟩
  cases perr with
  | some e => simp [CreateDomainBlock, hp] at h
  | none =>
    cases hw : (s.db.Insert { b with Domain := out }).1 with
    | some e => simp [CreateDomainBlock, hp, State.exec, hw] at h
    | none =>
      have := s.db.Insert_ok _ hw
      simp [CreateDomainBlock, hp, State.exec, hw, State.cacheClear, this]

theorem CreateDomainBlock_err (env : Env) (b : DomainBlock) (s : State) (e : Error)
    (h : (CreateDomainBlock env b s).1.1 = some e) :
    (CreateDomainBlock env b s).2.cache = s.cache ∧
    (CreateDomainBlock env b s).2.db.rows = s.db.rows := by
  rcases hp : env.Punify b.Domain with ⟨out, perr⟩
  cases perr with
  | some e1 => simp [CreateDomainBlock, hp]
  | none =>
    cases hw : (s.db.Insert { b with Domain := out }).1 with
    | some e1 =>
      have := s.db.Insert_err _ e1 hw
      simp [CreateDomainBlock, hp, State.exec, hw, this]
    | none => simp [CreateDomainBlock, hp, State.exec, hw] at h

theorem UpdateDomainBlock_ok (env : Env) (b : DomainBlock) (s : State)
    (h : (UpdateDomainBlock env b s).1.1 = none) :
    (UpdateDomainBlock env b s).2.cache = ⟨none⟩ := by
  rcases hp : env.Punify b.Domain with ⟨out, perr⟩
  cases perr with
  | some e => simp [UpdateDomainBlock, hp] at h
  | none =>
    cases hw : (s.db.Update { b with Domain := out }).1 with
    | some e => simp [UpdateDomainBlock, hp, State.exec, hw] at h
    | none => simp [UpdateDomainBlock, hp, State.exec, hw, State.cacheClear]

theorem UpdateDomainBlock_err (env : Env) (b : DomainBlock) (s : State) (e : Error)
    (h : (UpdateDomainBlock env b s).1.1 = some e) :
    (UpdateDomainBlock env b s).2.cache = s.cache ∧
    (UpdateDomainBlock env b s).2.db.rows = s.db.rows := by
  rcases hp : env.Punify b.Domain with ⟨out, perr⟩
  cases perr with
  | some e1 => simp [UpdateDomainBlock, hp]
  | none =>
    cases hw : (s.db.Update { b with Domain := out }).1 with
    | some e1 =>
      have := s.db.Update_err _ e1 hw
      simp [UpdateDomainBlock, hp, State.exec, hw, this]
    | none => simp [UpdateDomainBlock, hp, State.exec, hw] at h

theorem DeleteDomainBlock_ok (env : Env) (d : String) (s : State)
    (h : (DeleteDomainBlock env d s).1 = none) :
    (env.Punify d).2 = none ∧
    (DeleteDomainBlock env d s).2.cache = ⟨none⟩ ∧
    (DeleteDomainBlock env d s).2.db.rows
      = s.db.rows.filter (fun r => r.Domain != (env.Punify d).1) := by
  rcases hp : env.Punify d with ⟨out, perr⟩
  cases perr with
  | some e => simp [DeleteDomainBlock, hp] at h
  | none =>
    cases hw : (s.db.Delete out).1 with
    | some e => simp [DeleteDomainBlock, hp, State.exec, hw] at h
    | none =>
      have := s.db.Delete_ok _ hw
      simp [DeleteDomainBlock, hp, State.exec, hw, State.cacheClear, this]

theorem DeleteDomainBlock_err (env : Env) (d : String) (s : State) (e : Error)
    (h : (DeleteDomainBlock env d s).1 = some e) :
    (DeleteDomainBlock env d s).2.cache = s.cache ∧
    (DeleteDomainBlock env d s).2.db.rows = s.db.rows := by
  rcases hp : env.Punify d with ⟨out, perr⟩
  cases perr with
  | some e1 => simp [DeleteDomainBlock, hp]
  | none =>
    cases hw : (s.db.Delete out).1 with
    | some e1 =>
      have := s.db.Delete_err _ e1 hw
      simp [DeleteDomainBlock, hp, State.exec, hw, this]
    | none => simp [DeleteDomainBlock, hp, State.exec, hw] at h

/-! ### Create, delete, then ask -/

/-- C1 (amended): if `CreateDomainBlock` succeeds on a domain whose normal
form is neither empty nor the account domain nor the host, and the store
does not fail the hydration fetch that follows, then the next
`IsDomainBlocked` on that domain answers `(true, nil)`, whatever the store
and the cache held before the creation. -/
theorem Create_then_IsDomainBlocked (env : Env) (block : DomainBlock) (s : State)
    (hc : (CreateDomainBlock env block s).1.1 = none)
    (hself : ¬ ((env.Punify block.Domain).1 = "" ∨
      (env.Punify block.Domain).1 = env.AccountDomain ∨
      (env.Punify block.Domain).1 = env.Host))
    (hfetch : (CreateDomainBlock env block s).2.db.nextFault.1 = none) :
    (IsDomainBlocked env block.Domain (CreateDomainBlock env block s).2).1 = (true, none) := by
  obtain ⟨hp, hcache, hrows⟩ := CreateDomainBlock_ok env block s hc
  rcases hpu : env.Punify block.Domain with ⟨out, perr⟩
  rw [hpu] at hp hself hrows
  simp only at hp hself hrows
  subst hp
  have hcd : (CreateDomainBlock env block s).2.cache.domains = none := by rw [hcache]
  have hh := (cacheIsBlocked_hydrate (CreateDomainBlock env block s).2 out hcd hfetch).1
  simp only [IsDomainBlocked, hpu]
  rw [if_neg hself, hh, hrows]
  simp

/-- C2: if `DeleteDomainBlock` succeeds on a domain, the next
`IsDomainBlocked` on that domain answers `false`, whatever the store and the
cache held before the deletion; and unless the store fails the hydration
fetch, it answers `(false, nil)`. -/
theorem Delete_then_IsDomainBlocked (env : Env) (domain : String) (s : State)
    (hd : (DeleteDomainBlock env domain s).1 = none) :
    (IsDomainBlocked env domain (DeleteDomainBlock env domain s).2).1.1 = false ∧
    ((DeleteDomainBlock env domain s).2.db.nextFault.1 = none →
      (IsDomainBlocked env domain (DeleteDomainBlock env domain s).2).1 = (false, none)) := by
  obtain ⟨hp, hcache, hrows⟩ := DeleteDomainBlock_ok env domain s hd
  rcases hpu : env.Punify domain with ⟨out, perr⟩
  rw [hpu] at hp hrows
  simp only at hp hrows
  subst hp
  have hcd : (DeleteDomainBlock env domain s).2.cache.domains = none := by rw [hcache]
  have key : ∀ (hf : (DeleteDomainBlock env domain s).2.db.nextFault.1 = none),
      (IsDomainBlocked env domain (DeleteDomainBlock env domain s).2).1 = (false, none) := by
    intro hf
    simp only [IsDomainBlocked, hpu]
    split
    · rfl
    · rw [(cacheIsBlocked_hydrate (DeleteDomainBlock env domain s).2 out hcd hf).1, hrows]
      simp
  refine ⟨?_, key⟩
  cases hf : (DeleteDomainBlock env domain s).2.db.nextFault.1 with
  | none => rw [key hf]
  | some e =>
    simp only [IsDomainBlocked, hpu]
    split
    · rfl
    · rw [(cacheIsBlocked_fault (DeleteDomainBlock env domain s).2 out e hcd hf).1]

/-- Instance of `Create_then_IsDomainBlocked`: the cache is populated and
does not hold the domain (an earlier query has answered `false`), the block
is created under another spelling of the domain. -/
theorem Create_then_IsDomainBlocked_witness :
    (CreateDomainBlock demoEnv (demoBlock "01" "EVIL.example") ⟨⟨[], []⟩, ⟨some []⟩, []⟩).1.1
      = none ∧
    (IsDomainBlocked demoEnv "EVIL.example"
      (CreateDomainBlock demoEnv (demoBlock "01" "EVIL.example")
        ⟨⟨[], []⟩, ⟨some []⟩, []⟩).2).1 = (true, none) :=
  ⟨by decide,
    Create_then_IsDomainBlocked demoEnv (demoBlock "01" "EVIL.example")
      ⟨⟨[], []⟩, ⟨some []⟩, []⟩ (by decide) (by decide) (by decide)⟩

/-- C1 as stated fails in two ways.  A block created for the host itself is
stored, yet `IsDomainBlocked` on the host answers `(false, nil)`.  And when
the store fails the hydration fetch that follows a creation,
`IsDomainBlocked` answers `(false, err)`.  So "creation succeeded" does not
imply "the next query answers true" for every domain and state. -/
theorem Create_then_IsDomainBlocked_fails :
    ((CreateDomainBlock demoEnv (demoBlock "01" "gts.example") (demoState [])).1.1 = none ∧
      (IsDomainBlocked demoEnv "gts.example"
        (CreateDomainBlock demoEnv (demoBlock "01" "gts.example") (demoState [])).2).1
        = (false, none)) ∧
    ((CreateDomainBlock demoEnv (demoBlock "01" "evil.example")
        ⟨⟨[], [none, some (Error.store 1)]⟩, ⟨none⟩, []⟩).1.1 = none ∧
      (IsDomainBlocked demoEnv "evil.example"
        (CreateDomainBlock demoEnv (demoBlock "01" "evil.example")
          ⟨⟨[], [none, some (Error.store 1)]⟩, ⟨none⟩, []⟩).2).1
        = (false, some (Error.store 1))) ∧
    ¬ ∀ (env : Env) (block : DomainBlock) (s : State),
        (CreateDomainBlock env block s).1.1 = none →
        (IsDomainBlocked env block.Domain (CreateDomainBlock env block s).2).1.1 = true := by
  refine ⟨⟨by decide, by decide⟩, ⟨by decide, by decide⟩, ?_⟩
  intro h
  have := h demoEnv (demoBlock "01" "gts.example") (demoState []) (by decide)
  revert this
  decide

/-- Instance of `Delete_then_IsDomainBlocked`: the domain is in the table
and in the populated cache before the deletion. -/
theorem Delete_then_IsDomainBlocked_witness :
    (DeleteDomainBlock demoEnv "EVIL.example"
      ⟨⟨[demoBlock "01" "evil.example"], []⟩, ⟨some ["evil.example"]⟩, []⟩).1 = none ∧
    (IsDomainBlocked demoEnv "EVIL.example"
      (DeleteDomainBlock demoEnv "EVIL.example"
        ⟨⟨[demoBlock "01" "evil.example"], []⟩, ⟨some ["evil.example"]⟩, []⟩).2).1
      = (false, none) :=
  ⟨by decide,
    (Delete_then_IsDomainBlocked demoEnv "EVIL.example"
      ⟨⟨[demoBlock "01" "evil.example"], []⟩, ⟨some ["evil.example"]⟩, []⟩ (by decide)).2
      (by decide)⟩

/-! ### The cache follows the store -/

theorem Consistent_of_unpopulated (s : State) (h : s.cache.domains = none) : Consistent s := by
  intro ds hds
  rw [h] at hds
  cases hds

/-- A step that keeps the cache and the rows keeps consistency. -/
theorem Consistent_of_same (s t : State) (hc : t.cache = s.cache) (hr : t.db.rows = s.db.rows)
    (h : Consistent s) : Consistent t := by
  intro ds hds
  rw [hc] at hds
  rw [hr]
  exact h ds hds

theorem IsDomainBlocked_consistent (env : Env) (d : String) (s : State) (h : Consistent s) :
    Consistent (IsDomainBlocked env d s).2 := by
  rcases hp : env.Punify d with ⟨out, perr⟩
  cases perr with
  | some e => simpa [IsDomainBlocked, hp] using h
  | none =>
    simp only [IsDomainBlocked, hp]
    split
    · exact h
    · cases hc : s.cache.domains with
      | some ds =>
        rw [cacheIsBlocked_populated s out ds hc]
        exact Consistent_of_same s _ rfl rfl h
      | none =>
        cases hf : s.db.nextFault.1 with
        | none =>
          obtain ⟨_, h2, h3⟩ := cacheIsBlocked_hydrate s out hc hf
          intro ds hds
          rw [h2] at hds
          rw [h3]
          simpa using hds.symm
        | some e =>
          obtain ⟨_, h2, h3⟩ := cacheIsBlocked_fault s out e hc hf
          exact Consistent_of_same s _ h2 h3 h

theorem AreDomainsBlocked_consistent (env : Env) (ds : List String) (s : State)
    (h : Consistent s) : Consistent (AreDomainsBlocked env ds s).2 := by
  induction ds generalizing s with
  | nil => exact h
  | cons d rest ih =>
    have h1 := IsDomainBlocked_consistent env d s h
    rcases hd : IsDomainBlocked env d s with ⟨⟨b, e⟩, s1⟩
    rw [hd] at h1
    cases e with
    | some e => simpa [AreDomainsBlocked, hd] using h1
    | none =>
      cases b with
      | true => simpa [AreDomainsBlocked, hd] using h1
      | false =>
        simp only [AreDomainsBlocked, hd]
        exact ih s1 h1

theorem GetDomainBlock_same (env : Env) (d : String) (s : State) :
    (GetDomainBlock env d s).2.cache = s.cache ∧
    (GetDomainBlock env d s).2.db.rows = s.db.rows := by
  rcases hp : env.Punify d with ⟨out, perr⟩
  cases perr with
  | some e => simp [GetDomainBlock, hp]
  | none =>
    simp only [GetDomainBlock, hp]
    split
    · exact ⟨rfl, rfl⟩
    · have hr := s.db.SelectByDomain_rows out
      rcases hs : s.db.SelectByDomain out with ⟨⟨v, e⟩, db1⟩
      rw [hs] at hr
      cases e <;> simpa [State.scan, hs] using hr

theorem GetDomainBlocks_same (s : State) :
    (GetDomainBlocks s).2.cache = s.cache ∧ (GetDomainBlocks s).2.db.rows = s.db.rows := by
  have hr := s.db.SelectAll_rows
  rcases hs : s.db.SelectAll with ⟨⟨v, e⟩, db1⟩
  rw [hs] at hr
  cases e <;> simpa [GetDomainBlocks, State.scan, hs] using hr

theorem GetDomainBlockByID_same (id : String) (s : State) :
    (GetDomainBlockByID id s).2.cache = s.cache ∧
    (GetDomainBlockByID id s).2.db.rows = s.db.rows := by
  have hr := s.db.SelectByID_rows id
  rcases hs : s.db.SelectByID id with ⟨⟨v, e⟩, db1⟩
  rw [hs] at hr
  cases e <;> simpa [GetDomainBlockByID, State.scan, hs] using hr

theorem step_consistent (env : Env) (c : Call) (s : State) (h : Consistent s) :
    Consistent (step env c s) := by
  cases c with
  | CreateDomainBlock block =>
    show Consistent (CreateDomainBlock env block s).2
    cases hr : (CreateDomainBlock env block s).1.1 with
    | none =>
      exact Consistent_of_unpopulated _ (by rw [(CreateDomainBlock_ok env block s hr).2.1])
    | some e =>
      obtain ⟨h1, h2⟩ := CreateDomainBlock_err env block s e hr
      exact Consistent_of_same s _ h1 h2 h
  | UpdateDomainBlock block =>
    show Consistent (UpdateDomainBlock env block s).2
    cases hr : (UpdateDomainBlock env block s).1.1 with
    | none => exact Consistent_of_unpopulated _ (by rw [UpdateDomainBlock_ok env block s hr])
    | some e =>
      obtain ⟨h1, h2⟩ := UpdateDomainBlock_err env block s e hr
      exact Consistent_of_same s _ h1 h2 h
  | DeleteDomainBlock domain =>
    show Consistent (DeleteDomainBlock env domain s).2
    cases hr : (DeleteDomainBlock env domain s).1 with
    | none =>
      exact Consistent_of_unpopulated _ (by rw [(DeleteDomainBlock_ok env domain s hr).2.1])
    | some e =>
      obtain ⟨h1, h2⟩ := DeleteDomainBlock_err env domain s e hr
      exact Consistent_of_same s _ h1 h2 h
  | GetDomainBlock domain =>
    exact Consistent_of_same s _ (GetDomainBlock_same env domain s).1
      (GetDomainBlock_same env domain s).2 h
  | GetDomainBlocks =>
    exact Consistent_of_same s _ (GetDomainBlocks_same s).1 (GetDomainBlocks_same s).2 h
  | GetDomainBlockByID id =>
    exact Consistent_of_same s _ (GetDomainBlockByID_same id s).1
      (GetDomainBlockByID_same id s).2 h
  | IsDomainBlocked domain => exact IsDomainBlocked_consistent env domain s h
  | AreDomainsBlocked domains => exact AreDomainsBlocked_consistent env domains s h
  | IsURIBlocked uri => exact IsDomainBlocked_consistent env uri.Hostname s h
  | AreURIsBlocked uris =>
    show Consistent (AreURIsBlocked env uris s).2
    rw [AreURIsBlocked_map]
    exact AreDomainsBlocked_consistent env _ s h

theorem run_consistent (env : Env) (calls : List Call) (s : State) (h : Consistent s) :
    Consistent (run env calls s) := by
  induction calls generalizing s with
  | nil => exact h
  | cons c rest ih => exact ih (step env c s) (step_consistent env c s h)

/-- C8: in every state reached from an unpopulated cache by any sequence of
calls of the methods of `domainDB` (each succeeding or failing), a populated
cache holds exactly the domains of the rows then in the table: a domain is
in the cache if and only if some row carries it. -/
theorem cache_matches_store (env : Env) (calls : List Call) (s0 : State)
    (h0 : s0.cache.domains = none) (ds : List String)
    (hpop : (run env calls s0).cache.domains = some ds) (x : String) :
    x ∈ ds ↔ ∃ r ∈ (run env calls s0).db.rows, r.Domain = x := by
  have := run_consistent env calls s0 (Consistent_of_unpopulated s0 h0) ds hpop
  rw [this]
  simp

/-- Instance of `cache_matches_store`: a block is created and queried; the
query populates the cache with the one domain of the table. -/
theorem cache_matches_store_witness :
    (run demoEnv [Call.CreateDomainBlock (demoBlock "01" "EVIL.example"),
        Call.IsDomainBlocked "evil.example"] (demoState [])).cache.domains
      = some ["evil.example"] ∧
    ("evil.example" ∈ ["evil.example"] ↔
      ∃ r ∈ (run demoEnv [Call.CreateDomainBlock (demoBlock "01" "EVIL.example"),
        Call.IsDomainBlocked "evil.example"] (demoState [])).db.rows, r.Domain = "evil.example") :=
  ⟨by decide,
    cache_matches_store demoEnv [Call.CreateDomainBlock (demoBlock "01" "EVIL.example"),
      Call.IsDomainBlocked "evil.example"] (demoState []) (by decide) ["evil.example"]
      (by decide) "evil.example"⟩

/-! ### Concrete runs -/

/-- A second block for a domain already in the table is refused by the
store; the populated cache is kept and no `Clear` is recorded. -/
theorem demo_create_conflict :
    CreateDomainBlock demoEnv (demoBlock "02" "evil.example")
        ⟨⟨[demoBlock "01" "evil.example"], []⟩, ⟨some ["evil.example"]⟩, []⟩
      = ((some Error.alreadyExists, demoBlock "02" "evil.example"),
          ⟨⟨[demoBlock "01" "evil.example"], []⟩, ⟨some ["evil.example"]⟩,
            [Event.store (Query.insert (demoBlock "02" "evil.example"))
              (some Error.alreadyExists)]⟩) := by
  decide

/-- The loop stops at a malformed domain: the blocked domain after it is not
looked at, and neither the cache nor the store is touched. -/
theorem demo_loop_stops_at_error :
    AreDomainsBlocked demoEnv ["gts.example", "bad domain", "evil.example"]
        (demoState [demoBlock "01" "evil.example"])
      = ((false, some Error.invalidDomain), demoState [demoBlock "01" "evil.example"]) := by
  decide

/-- The loop stops at the first block: one cache call, one hydration fetch,
nothing for the domain that follows. -/
theorem demo_loop_stops_at_block :
    AreDomainsBlocked demoEnv ["evil.example", "other.example"]
        (demoState [demoBlock "01" "evil.example"])
      = ((true, none),
          ⟨⟨[demoBlock "01" "evil.example"], []⟩, ⟨some ["evil.example"]⟩,
            [Event.cacheIsBlocked "evil.example", Event.store Query.selectDomains none]⟩) := by
  decide

/-- A failed hydration fetch leaves the cache unpopulated; the next query
fetches again and answers from the table. -/
theorem demo_hydration_retry :
    IsDomainBlocked demoEnv "evil.example"
        ⟨⟨[demoBlock "01" "evil.example"], [some (Error.store 7)]⟩, ⟨none⟩, []⟩
      = ((false, some (Error.store 7)),
          ⟨⟨[demoBlock "01" "evil.example"], []⟩, ⟨none⟩,
            [Event.cacheIsBlocked "evil.example",
              Event.store Query.selectDomains (some (Error.store 7))]⟩) ∧
    (IsDomainBlocked demoEnv "evil.example"
        (IsDomainBlocked demoEnv "evil.example"
          ⟨⟨[demoBlock "01" "evil.example"], [some (Error.store 7)]⟩, ⟨none⟩, []⟩).2).1
      = (true, none) := by
  decide

/-- The clear discipline and the consistency of cache and store, evaluated
on a run: create, query (hydrating), delete, query again. -/
theorem demo_discipline_and_consistency :
    ClearDiscipline (Query.delete "evil.example") none
      ⟨⟨[demoBlock "01" "evil.example"], []⟩, ⟨some ["evil.example"]⟩, []⟩
      (DeleteDomainBlock demoEnv "EVIL.example"
        ⟨⟨[demoBlock "01" "evil.example"], []⟩, ⟨some ["evil.example"]⟩, []⟩).2 ∧
    Consistent (run demoEnv [Call.CreateDomainBlock (demoBlock "01" "EVIL.example"),
      Call.IsDomainBlocked "evil.example", Call.DeleteDomainBlock "evil.example",
      Call.AreDomainsBlocked ["other.example", "evil.example"]] (demoState [])) ∧
    ¬ Consistent ⟨⟨[], []⟩, ⟨some ["evil.example"]⟩, []⟩ := by
  decide

end GoToSocial
